import Mathlib

/-!
Verification of the clocked server's credential lifecycle and websocket
broadcast hub, shallowly embedded from the TypeScript source
(`src/server/src/lib/auth.ts`, `src/server/src/lib/websocket.ts`,
`src/server/src/routes/auth.ts`, `src/server/src/routes/sessions.ts`).

Conventions of the embedding:
* Clock values (`Date.now()`, the JWT `exp` claim, persisted `expiresAt`
  columns) are a single abstract `Nat` timeline.
* `jwt.sign` / `jwt.verify` from the `jsonwebtoken` library are modelled
  symbolically: a signed token records its payload, issuer, audience,
  expiry and signing secret, and verification checks exactly the fields
  the library checks (secret, issuer, audience, expiry; the library
  rejects once the clock reaches `exp`).
* Database tables (`refreshToken`, `magicLink`, `groupMember`, `user`)
  are lists of rows; `findUnique` is `List.find?` on the key column,
  `update where key` maps the update over the rows matching the key
  (a no-op when the key is absent), `create` appends a row.
* Randomly generated identifiers (`crypto.randomUUID()`) are passed in
  as explicit parameters at each call site.
* Throwing code is modelled with `Option` / `Except`: every throw inside
  an operation's `try` block collapses to the single error that the
  surrounding `catch` reports, exactly as in the source.
-/

namespace Clocked

/-- Signing configuration (`config.ts`): the JWT secret and the
access-token and refresh-token lifetimes (`jwtExpiresIn`,
`refreshTokenExpiresIn`), in abstract clock units. -/
structure Config where
  jwtSecret : String
  accessTtl : Nat
  refreshTtl : Nat
deriving DecidableEq, Repr

/-- Payload of a signed JWT: either the access-token claims
`{userId, email, handle}` (`JWTPayload`) or the refresh-token claims
`{userId, tokenId}` (`RefreshTokenPayload`). -/
inductive TokenBody where
  | access (userId email handle : String)
  | refresh (userId tokenId : String)
deriving DecidableEq, Repr

/-- A token produced by `jwt.sign(payload, secret, {expiresIn, issuer,
audience})`: the payload plus the signed-in issuer, audience, expiry
time and the secret the signature binds it to. -/
structure SignedToken where
  body : TokenBody
  iss : String
  aud : String
  exp : Nat
  secret : String
deriving DecidableEq, Repr

/-- `jwt.verify(token, secret, {issuer, audience})`: succeeds with the
payload iff the signature matches the secret, the issuer and audience
claims equal the expected ones, and the token has not expired (the
library rejects as soon as the clock reaches `exp`). -/
def jwtVerify (secret iss aud : String) (now : Nat) (t : SignedToken) :
    Option TokenBody :=
  if t.secret = secret ∧ t.iss = iss ∧ t.aud = aud ∧ now < t.exp then
    some t.body
  else
    none

/-- A user row, restricted to the columns token issuance reads. -/
structure User where
  id : String
  email : String
  handle : String
deriving DecidableEq, Repr

/-- `AuthService.generateAccessToken(user)`: signs
`{userId: user.id, email: user.email, handle: user.handle}` with issuer
`"clocked"` and audience `"clocked-users"`, expiring `jwtExpiresIn`
after now. -/
def generateAccessToken (cfg : Config) (now : Nat) (u : User) : SignedToken :=
  { body := .access u.id u.email u.handle
    iss := "clocked"
    aud := "clocked-users"
    exp := now + cfg.accessTtl
    secret := cfg.jwtSecret }

/-- `AuthService.verifyAccessToken(token)`: `jwt.verify` with issuer
`"clocked"` and audience `"clocked-users"`; returns the claims
`(userId, email, handle)`, or `none` for the thrown
`'Invalid access token'`. -/
def verifyAccessToken (cfg : Config) (now : Nat) (t : SignedToken) :
    Option (String × String × String) :=
  match jwtVerify cfg.jwtSecret "clocked" "clocked-users" now t with
  | some (.access userId email handle) => some (userId, email, handle)
  | _ => none

/-- A row of the `refreshToken` table: `{id, token, userId, expiresAt,
revoked}` (`revoked` defaults to `false` on create). -/
structure RefreshTokenRecord where
  id : String
  token : String
  userId : String
  expiresAt : Nat
  revoked : Bool
deriving DecidableEq, Repr

/-- `prisma.refreshToken.findUnique({where: {id}})`. -/
def findRefreshToken (db : List RefreshTokenRecord) (tid : String) :
    Option RefreshTokenRecord :=
  db.find? (fun r => r.id == tid)

/-- `AuthService.generateRefreshToken(userId)`: creates a
`RefreshTokenRecord` with fresh `id = tokenId`, a second random value in
the `token` column, `expiresAt = now + refreshTtl`, `revoked = false`,
and returns the signed token embedding `{userId, tokenId}` with issuer
`"clocked"` and audience `"clocked-refresh"`.  The two
`crypto.randomUUID()` results are the `tokenId` and `tokenCol`
parameters. -/
def generateRefreshToken (cfg : Config) (now : Nat)
    (userId tokenId tokenCol : String) (db : List RefreshTokenRecord) :
    SignedToken × List RefreshTokenRecord :=
  ({ body := .refresh userId tokenId
     iss := "clocked"
     aud := "clocked-refresh"
     exp := now + cfg.refreshTtl
     secret := cfg.jwtSecret },
   db ++ [{ id := tokenId
            token := tokenCol
            userId := userId
            expiresAt := now + cfg.refreshTtl
            revoked := false }])

/-- `AuthService.verifyRefreshToken(token)`: `jwt.verify` with issuer
`"clocked"` and audience `"clocked-refresh"`, then loads the record by
`payload.tokenId` and throws (`none`) if
`!refreshToken || refreshToken.revoked || refreshToken.expiresAt < new Date()`;
otherwise returns the payload `(userId, tokenId)`. -/
def verifyRefreshToken (cfg : Config) (now : Nat)
    (db : List RefreshTokenRecord) (t : SignedToken) :
    Option (String × String) :=
  match jwtVerify cfg.jwtSecret "clocked" "clocked-refresh" now t with
  | some (.refresh userId tokenId) =>
    match findRefreshToken db tokenId with
    | some r =>
      if r.revoked ∨ r.expiresAt < now then none else some (userId, tokenId)
    | none => none
  | _ => none

/-- `AuthService.revokeRefreshToken(tokenId)`:
`prisma.refreshToken.update({where: {id: tokenId}, data: {revoked: true}})`. -/
def revokeRefreshToken (db : List RefreshTokenRecord) (tid : String) :
    List RefreshTokenRecord :=
  db.map (fun r => if r.id = tid then { r with revoked := true } else r)

/-- `AuthService.revokeAllRefreshTokens(userId)`:
`prisma.refreshToken.updateMany({where: {userId}, data: {revoked: true}})`. -/
def revokeAllRefreshTokens (db : List RefreshTokenRecord) (uid : String) :
    List RefreshTokenRecord :=
  db.map (fun r => if r.userId = uid then { r with revoked := true } else r)

/-- A row of the `magicLink` table: `{token, email, expiresAt, used}`
(`used` defaults to `false` on create). -/
structure MagicLinkRecord where
  token : String
  email : String
  expiresAt : Nat
  used : Bool
deriving DecidableEq, Repr

/-- `prisma.magicLink.findUnique({where: {token}})`. -/
def findMagicLink (db : List MagicLinkRecord) (tok : String) :
    Option MagicLinkRecord :=
  db.find? (fun r => r.token == tok)

/-- `prisma.magicLink.update({where: {token}, data: {used: true}})`. -/
def markMagicLinkUsed (db : List MagicLinkRecord) (tok : String) :
    List MagicLinkRecord :=
  db.map (fun r => if r.token = tok then { r with used := true } else r)

/-- `AuthService.generateMagicLinkToken(email)`: stores a record with a
fresh random token and `expiresAt = now + 15 * 60 * 1000` (15 minutes). -/
def generateMagicLinkToken (now : Nat) (db : List MagicLinkRecord)
    (tok email : String) : List MagicLinkRecord :=
  db ++ [{ token := tok, email := email, expiresAt := now + 15 * 60 * 1000,
           used := false }]

/-- `AuthService.verifyMagicLinkToken(token)`: loads the record by
token and throws (`none`) if
`!magicLink || magicLink.used || magicLink.expiresAt < new Date()`;
otherwise marks the record used and returns its email together with the
updated table. -/
def verifyMagicLinkToken (now : Nat) (db : List MagicLinkRecord)
    (tok : String) : Option (String × List MagicLinkRecord) :=
  match findMagicLink db tok with
  | some m =>
    if m.used ∨ m.expiresAt < now then none
    else some (m.email, markMagicLinkUsed db tok)
  | none => none

/-- The `UserRole` enum of the membership schema. -/
inductive UserRole where
  | MEMBER
  | ADMIN
  | OWNER
deriving DecidableEq, Repr

/-- The `roleHierarchy` table of `AuthService.checkGroupPermission`:
`{MEMBER: 1, ADMIN: 2, OWNER: 3}`. -/
def roleHierarchy : UserRole → Nat
  | .MEMBER => 1
  | .ADMIN => 2
  | .OWNER => 3

/-- A row of the `groupMember` table. -/
structure GroupMember where
  groupId : String
  userId : String
  role : UserRole
deriving DecidableEq, Repr

/-- `prisma.groupMember.findUnique({where: {groupId_userId: {groupId,
userId}}})`. -/
def findMembership (ms : List GroupMember) (gid uid : String) :
    Option GroupMember :=
  ms.find? (fun m => m.groupId == gid && m.userId == uid)

/-- `AuthService.checkGroupPermission(userId, groupId, requiredRole)`:
loads the membership, returns `false` when absent, otherwise
`roleHierarchy[membership.role] >= roleHierarchy[requiredRole]`. -/
def checkGroupPermission (ms : List GroupMember) (uid gid : String)
    (requiredRole : UserRole) : Bool :=
  match findMembership ms gid uid with
  | none => false
  | some m => decide (roleHierarchy requiredRole ≤ roleHierarchy m.role)

/-- Error outcomes of the `POST /v1/auth/refresh` handler: the 401
`INVALID_REFRESH_TOKEN` reply (any throw in the handler's `try`) and the
401 `USER_NOT_FOUND` reply. -/
inductive AuthErr where
  | invalidRefreshToken
  | userNotFound
deriving DecidableEq, Repr

/-- The `POST /v1/auth/refresh` handler (`routes/auth.ts`): verify the
presented refresh token, load the user, revoke the presented token's
record, issue a brand-new access + refresh token pair, and return both
with the updated table.  `freshId` and `freshCol` stand for the
`crypto.randomUUID()` results inside `generateRefreshToken`. -/
def refreshHandler (cfg : Config) (now : Nat) (users : List User)
    (db : List RefreshTokenRecord) (t : SignedToken)
    (freshId freshCol : String) :
    Except AuthErr (List RefreshTokenRecord × SignedToken × SignedToken) :=
  match verifyRefreshToken cfg now db t with
  | none => .error .invalidRefreshToken
  | some (userId, tokenId) =>
    match users.find? (fun u => u.id == userId) with
    | none => .error .userNotFound
    | some u =>
      let db1 := revokeRefreshToken db tokenId
      let (newRefresh, db2) := generateRefreshToken cfg now u.id freshId freshCol db1
      .ok (db2, generateAccessToken cfg now u, newRefresh)

/-- The mutations the server ever performs on the `refreshToken` table:
`create` (inside `generateRefreshToken`), `revoke` of one record
(`revokeRefreshToken`), and `revokeAll` for a user
(`revokeAllRefreshTokens`).  No operation deletes a row or clears the
`revoked` flag. -/
inductive DbStep : List RefreshTokenRecord → List RefreshTokenRecord → Prop where
  | create (db : List RefreshTokenRecord) (r : RefreshTokenRecord) :
      DbStep db (db ++ [r])
  | revoke (db : List RefreshTokenRecord) (tid : String) :
      DbStep db (revokeRefreshToken db tid)
  | revokeAll (db : List RefreshTokenRecord) (uid : String) :
      DbStep db (revokeAllRefreshTokens db uid)

/-- An `AuthenticatedWebSocket` as the broadcast code sees it: an
identity for the underlying socket, the optional `userId` and cached
`groupIds` fields set at handshake, and whether `readyState === OPEN`. -/
structure WsClient where
  cid : Nat
  userId : Option String
  groupIds : Option (List String)
  isOpen : Bool
deriving DecidableEq, Repr

/-- `authClient.groupIds?.has(groupId)`: `false` when `groupIds` is
unset. -/
def WsClient.hasGroupB (c : WsClient) (gid : String) : Bool :=
  match c.groupIds with
  | some gs => gs.contains gid
  | none => false

/-- A server→client message envelope, restricted to the fields the
broadcast claims mention. -/
structure WsMessage where
  type : String
  groupId : Option String
deriving DecidableEq, Repr

/-- `WebSocketManager.broadcastToGroup(groupId, message)`: iterate all
clients of the websocket server; send the message to each whose
`readyState === OPEN` and whose cached `groupIds` contains `groupId`.
The result is the list of (client, message) sends performed. -/
def broadcastToGroup (clients : List WsClient) (gid : String)
    (m : WsMessage) : List (WsClient × WsMessage) :=
  (clients.filter (fun c => c.isOpen && c.hasGroupB gid)).map (fun c => (c, m))

/-- The `session_started` broadcast of `routes/sessions.ts` (the
`session_ended` broadcast is the same loop): iterate the websocket
server's clients and send the event to every client with
`readyState === OPEN` — there is no group-membership check; the event
merely carries the session's `groupId` as a field. -/
def sessionStartedBroadcast (clients : List WsClient) (gid : String) :
    List (WsClient × WsMessage) :=
  (clients.filter (fun c => c.isOpen)).map
    (fun c => (c, { type := "session_started", groupId := some gid }))

/-- The `WebSocketManager.clients` map (`Map<string, AuthenticatedWebSocket>`),
as an association list keyed by `userId`. -/
abbrev Registry := List (String × WsClient)

/-- `this.clients.set(uid, ws)`: replaces any previous entry for `uid`. -/
def registrySet (st : Registry) (uid : String) (c : WsClient) : Registry :=
  (uid, c) :: st.filter (fun p => p.1 != uid)

/-- `this.clients.delete(uid)`. -/
def registryDelete (st : Registry) (uid : String) : Registry :=
  st.filter (fun p => p.1 != uid)

/-- `this.clients.get(uid)`. -/
def registryGet (st : Registry) (uid : String) : Option WsClient :=
  (st.find? (fun p => p.1 == uid)).map (fun p => p.2)

/-- The registration step of `WebSocketManager.handleConnection` after a
successful handshake: set `ws.userId` and `ws.groupIds` on the socket
and store it under `user.id` in the clients map. -/
def registerConnection (st : Registry) (uid : String) (gids : List String)
    (c : WsClient) : WsClient × Registry :=
  let c' := { c with userId := some uid, groupIds := some gids }
  (c', registrySet st uid c')

/-- The `ws.on('close', ...)` handler: if `ws.userId` is set, delete the
clients-map entry under that `userId` — whatever socket currently
occupies it. -/
def onCloseHandler (st : Registry) (c : WsClient) : Registry :=
  match c.userId with
  | some uid => registryDelete st uid
  | none => st

/-- `WebSocketManager.sendToUser(userId, message)`: look the user up in
the clients map; if present and `readyState === OPEN`, send and return
`true`; otherwise return `false`. -/
def sendToUser (st : Registry) (uid : String) : Bool :=
  match registryGet st uid with
  | some c => c.isOpen
  | none => false

/-! ### Helper lemmas -/

/-- `hasGroupB` tests membership of the cached `groupIds` list. -/
theorem hasGroupB_iff (c : WsClient) (gid : String) :
    c.hasGroupB gid = true ↔ ∃ gs, c.groupIds = some gs ∧ gid ∈ gs := by
  cases h : c.groupIds with
  | none => simp [WsClient.hasGroupB, h]
  | some gs => simp [WsClient.hasGroupB, h]

/-- Marking a magic link used rewrites the record `findMagicLink`
returns for that token. -/
theorem findMagicLink_markUsed (db : List MagicLinkRecord) (tok : String) :
    findMagicLink (markMagicLinkUsed db tok) tok =
      (findMagicLink db tok).map
        (fun r => if r.token = tok then { r with used := true } else r) := by
  unfold findMagicLink markMagicLinkUsed
  rw [List.find?_map]
  have hpf :
      ((fun r : MagicLinkRecord => r.token == tok) ∘
        (fun r => if r.token = tok then { r with used := true } else r)) =
      (fun r : MagicLinkRecord => r.token == tok) := by
    funext r
    by_cases h : r.token = tok <;> simp [h]
  rw [hpf]

/-- `find?` on an appended list keeps the first match of the prefix. -/
theorem find?_append_of_some {α : Type} {p : α → Bool} {l₁ : List α}
    {r : α} (l₂ : List α) (h : l₁.find? p = some r) :
    (l₁ ++ l₂).find? p = some r := by
  rw [List.find?_append, h]
  rfl

/-- Revoking a token id rewrites the record `findRefreshToken` returns
(for any looked-up id). -/
theorem findRefreshToken_revoke (db : List RefreshTokenRecord)
    (tid tid2 : String) :
    findRefreshToken (revokeRefreshToken db tid2) tid =
      (findRefreshToken db tid).map
        (fun r => if r.id = tid2 then { r with revoked := true } else r) := by
  unfold findRefreshToken revokeRefreshToken
  rw [List.find?_map]
  have hpf :
      ((fun r : RefreshTokenRecord => r.id == tid) ∘
        (fun r => if r.id = tid2 then { r with revoked := true } else r)) =
      (fun r : RefreshTokenRecord => r.id == tid) := by
    funext r
    by_cases hx : r.id = tid2 <;> simp [hx]
  rw [hpf]

/-- Revoking all of a user's tokens rewrites the record
`findRefreshToken` returns. -/
theorem findRefreshToken_revokeAll (db : List RefreshTokenRecord)
    (uid tid : String) :
    findRefreshToken (revokeAllRefreshTokens db uid) tid =
      (findRefreshToken db tid).map
        (fun r => if r.userId = uid then { r with revoked := true } else r) := by
  unfold findRefreshToken revokeAllRefreshTokens
  rw [List.find?_map]
  have hpf :
      ((fun r : RefreshTokenRecord => r.id == tid) ∘
        (fun r => if r.userId = uid then { r with revoked := true } else r)) =
      (fun r : RefreshTokenRecord => r.id == tid) := by
    funext r
    by_cases hx : r.userId = uid <;> simp [hx]
  rw [hpf]

/-- Characterization of `verifyRefreshToken`: it succeeds with
`(uid, tid)` iff the JWT layer accepts the token with exactly that
refresh payload and the record is present, unrevoked, and not past
expiry (the code's check is `expiresAt < now` for rejection). -/
theorem verifyRefreshToken_some_iff (cfg : Config) (now : Nat)
    (db : List RefreshTokenRecord) (t : SignedToken) (uid tid : String) :
    verifyRefreshToken cfg now db t = some (uid, tid) ↔
      jwtVerify cfg.jwtSecret "clocked" "clocked-refresh" now t =
          some (.refresh uid tid) ∧
        ∃ r, findRefreshToken db tid = some r ∧ r.revoked = false ∧
          now ≤ r.expiresAt := by
  constructor
  · intro h
    unfold verifyRefreshToken at h
    split at h
    next userId tokenId hjv =>
      split at h
      next r hfind =>
        split at h
        next hcond => cases h
        next hcond =>
          injection h with h'
          injection h' with h1 h2
          subst h1
          subst h2
          have hrev : r.revoked = false := by
            cases hb : r.revoked
            · rfl
            · exact absurd (Or.inl hb) hcond
          have hexp : now ≤ r.expiresAt := by
            rcases le_or_lt now r.expiresAt with h1 | h1
            · exact h1
            · exact absurd (Or.inr h1) hcond
          exact ⟨hjv, r, hfind, hrev, hexp⟩
      next hfind => cases h
    next hjv => cases h
  · rintro ⟨hjv, r, hfind, hrev, hexp⟩
    unfold verifyRefreshToken
    rw [hjv]
    show (match findRefreshToken db tid with
      | some r => if r.revoked = true ∨ r.expiresAt < now then none
                  else some (uid, tid)
      | none => none) = some (uid, tid)
    rw [hfind]
    show (if r.revoked = true ∨ r.expiresAt < now then none
          else some (uid, tid)) = some (uid, tid)
    rw [if_neg]
    rintro (hc | hc)
    · rw [hrev] at hc
      cases hc
    · exact absurd hexp (Nat.not_le.mpr hc)

/-- If the record under `tid` is revoked, no token verifies to `tid`. -/
theorem verifyRefreshToken_ne_some_of_revoked (cfg : Config) (now : Nat)
    (db : List RefreshTokenRecord) (t : SignedToken) (uid tid : String)
    (hrev : ∃ r0, findRefreshToken db tid = some r0 ∧ r0.revoked = true) :
    verifyRefreshToken cfg now db t ≠ some (uid, tid) := by
  intro hv
  rcases (verifyRefreshToken_some_iff cfg now db t uid tid).mp hv with
    ⟨_, r, hfind, hrrev, _⟩
  rcases hrev with ⟨r0, hfind0, hrev0⟩
  rw [hfind0] at hfind
  injection hfind with hfind
  rw [← hfind, hrev0] at hrrev
  cases hrrev

/-- If a token's payload names `tid` and the record under `tid` is
revoked, `verifyRefreshToken` returns `none` at every time. -/
theorem verifyRefreshToken_none_of_revoked (cfg : Config) (now2 : Nat)
    (db : List RefreshTokenRecord) (t : SignedToken) (uid tid : String)
    (hbody : t.body = .refresh uid tid)
    (hrev : ∃ r0, findRefreshToken db tid = some r0 ∧ r0.revoked = true) :
    verifyRefreshToken cfg now2 db t = none := by
  rcases hrev with ⟨r0, hfind0, hrev0⟩
  unfold verifyRefreshToken jwtVerify
  by_cases hcnd : t.secret = cfg.jwtSecret ∧ t.iss = "clocked" ∧
      t.aud = "clocked-refresh" ∧ now2 < t.exp
  · rw [if_pos hcnd, hbody]
    show (match findRefreshToken db tid with
      | some r => if r.revoked = true ∨ r.expiresAt < now2 then none
                  else some (uid, tid)
      | none => none) = none
    rw [hfind0]
    exact if_pos (Or.inl hrev0)
  · rw [if_neg hcnd]

/-- A single table mutation preserves "the record under `tid` exists
and is revoked". -/
theorem dbStep_preserves_revoked {db db2 : List RefreshTokenRecord}
    {tid : String} (hstep : DbStep db db2)
    (h : ∃ r, findRefreshToken db tid = some r ∧ r.revoked = true) :
    ∃ r, findRefreshToken db2 tid = some r ∧ r.revoked = true := by
  rcases h with ⟨r, hfind, hrev⟩
  cases hstep with
  | create r2 => exact ⟨r, find?_append_of_some _ hfind, hrev⟩
  | revoke tid2 =>
    refine ⟨if r.id = tid2 then { r with revoked := true } else r, ?_, ?_⟩
    · rw [findRefreshToken_revoke, hfind]
      rfl
    · by_cases hx : r.id = tid2 <;> simp [hx, hrev]
  | revokeAll uid =>
    refine ⟨if r.userId = uid then { r with revoked := true } else r, ?_, ?_⟩
    · rw [findRefreshToken_revokeAll, hfind]
      rfl
    · by_cases hx : r.userId = uid <;> simp [hx, hrev]

/-- Any sequence of table mutations preserves "the record under `tid`
exists and is revoked". -/
theorem dbSteps_preserve_revoked {db db2 : List RefreshTokenRecord}
    {tid : String} (hsteps : Relation.ReflTransGen DbStep db db2)
    (h : ∃ r, findRefreshToken db tid = some r ∧ r.revoked = true) :
    ∃ r, findRefreshToken db2 tid = some r ∧ r.revoked = true := by
  induction hsteps with
  | refl => exact h
  | tail _ hstep ih => exact dbStep_preserves_revoked hstep ih

/-- After `revokeRefreshToken db tid`, the record that was under `tid`
is present and revoked. -/
theorem revoke_marks_revoked {db : List RefreshTokenRecord} {tid : String}
    {r : RefreshTokenRecord} (hfind : findRefreshToken db tid = some r) :
    ∃ r2, findRefreshToken (revokeRefreshToken db tid) tid = some r2 ∧
      r2.revoked = true := by
  have hid : r.id = tid := by
    have := List.find?_some hfind
    simpa using this
  refine ⟨{ r with revoked := true }, ?_, rfl⟩
  rw [findRefreshToken_revoke, hfind]
  have : (if r.id = tid then { r with revoked := true } else r) =
      { r with revoked := true } := if_pos hid
  exact congrArg _ this

/-! ### Claim theorems -/

/-- C2: `broadcastToGroup(g, m)` performs a send to a client exactly
when the client is among the server's clients, is open, and its cached
`groupIds` contains `g`; the message sent is `m`. -/
theorem broadcastToGroup_exact_recipients (clients : List WsClient)
    (gid : String) (m : WsMessage) (c : WsClient) (msg : WsMessage) :
    (c, msg) ∈ broadcastToGroup clients gid m ↔
      c ∈ clients ∧ msg = m ∧ c.isOpen = true ∧
        ∃ gs, c.groupIds = some gs ∧ gid ∈ gs := by
  simp only [broadcastToGroup, List.mem_map, List.mem_filter, Bool.and_eq_true]
  constructor
  · rintro ⟨a, ⟨hmem, hopen, hgrp⟩, heq⟩
    injection heq with h1 h2
    subst h1
    subst h2
    exact ⟨hmem, rfl, hopen, (hasGroupB_iff a gid).mp hgrp⟩
  · rintro ⟨hmem, rfl, hopen, hgs⟩
    exact ⟨c, ⟨hmem, hopen, (hasGroupB_iff c gid).mpr hgs⟩, rfl⟩

/-- Witness for C2: with one open client scoped to `g1` and one open
client scoped to `g2`, a broadcast to `g1` reaches the first and not the
second. -/
theorem broadcastToGroup_exact_recipients_witness :
    ((⟨1, some "u1", some ["g1"], true⟩ : WsClient), (⟨"ping", none⟩ : WsMessage)) ∈
        broadcastToGroup [⟨1, some "u1", some ["g1"], true⟩,
          ⟨2, some "u2", some ["g2"], true⟩] "g1" ⟨"ping", none⟩ ∧
      ((⟨2, some "u2", some ["g2"], true⟩ : WsClient), (⟨"ping", none⟩ : WsMessage)) ∉
        broadcastToGroup [⟨1, some "u1", some ["g1"], true⟩,
          ⟨2, some "u2", some ["g2"], true⟩] "g1" ⟨"ping", none⟩ := by
  constructor
  · exact (broadcastToGroup_exact_recipients _ _ _ _ _).mpr
      ⟨by decide, rfl, rfl, ["g1"], rfl, by decide⟩
  · intro h
    rcases (broadcastToGroup_exact_recipients _ _ _ _ _).mp h with
      ⟨_, _, _, gs, hgs, hmem⟩
    cases hgs
    simp at hmem

/-- C1 (evaluation at the failing input): the `session_started`
broadcast of `routes/sessions.ts` sends the event to an open client
whose cached `groupIds` does *not* contain the session's group — the
loop has no group-membership filter. -/
theorem session_started_sent_to_nonmember :
    sessionStartedBroadcast [⟨7, some "u2", some ["g2"], true⟩] "g1" =
        [(⟨7, some "u2", some ["g2"], true⟩,
          ⟨"session_started", some "g1"⟩)] ∧
      (⟨7, some "u2", some ["g2"], true⟩ : WsClient).hasGroupB "g1" = false := by
  exact ⟨rfl, rfl⟩

/-- C4: cross-audience rejection.  A token issued by
`generateAccessToken` (audience `"clocked-users"`) is rejected by
`verifyRefreshToken`, and a token issued by `generateRefreshToken`
(audience `"clocked-refresh"`) is rejected by `verifyAccessToken`, at
every verification time and against every database state. -/
theorem cross_audience_rejection (cfg : Config) (now now2 : Nat)
    (db db0 : List RefreshTokenRecord) (u : User) (uid tid tcol : String) :
    verifyRefreshToken cfg now2 db (generateAccessToken cfg now u) = none ∧
      verifyAccessToken cfg now2
        ((generateRefreshToken cfg now uid tid tcol db0).1) = none := by
  have haud : ("clocked-users" : String) ≠ "clocked-refresh" := by decide
  constructor
  · simp [verifyRefreshToken, generateAccessToken, jwtVerify, haud]
  · simp [verifyAccessToken, generateRefreshToken, jwtVerify, haud.symm]

/-- C8: access-token round trip.  For every user, verifying a freshly
issued access token before its expiry returns exactly the user's id,
email and handle. -/
theorem access_token_round_trip (cfg : Config) (now now2 : Nat) (u : User)
    (h : now2 < now + cfg.accessTtl) :
    verifyAccessToken cfg now2 (generateAccessToken cfg now u) =
      some (u.id, u.email, u.handle) := by
  simp [verifyAccessToken, generateAccessToken, jwtVerify, h]

/-- Witness for C8 at a concrete configuration and user. -/
theorem access_token_round_trip_witness :
    verifyAccessToken ⟨"s", 900, 604800⟩ 100
        (generateAccessToken ⟨"s", 900, 604800⟩ 50 ⟨"u1", "a@b", "h1"⟩) =
      some ("u1", "a@b", "h1") :=
  access_token_round_trip ⟨"s", 900, 604800⟩ 50 100 ⟨"u1", "a@b", "h1"⟩
    (by decide)

/-- C9: `checkGroupPermission` succeeds exactly when a membership row
exists whose role rank dominates the required role's rank; in
particular, `MEMBER` permission holds iff any membership exists, and
`OWNER` permission holds only for the `OWNER` role. -/
theorem checkGroupPermission_rank_spec (ms : List GroupMember)
    (uid gid : String) (req : UserRole) :
    (checkGroupPermission ms uid gid req = true ↔
       ∃ m, findMembership ms gid uid = some m ∧
         roleHierarchy req ≤ roleHierarchy m.role)
    ∧ (checkGroupPermission ms uid gid .MEMBER = true ↔
       ∃ m, findMembership ms gid uid = some m)
    ∧ (checkGroupPermission ms uid gid .OWNER = true →
       ∃ m, findMembership ms gid uid = some m ∧ m.role = .OWNER) := by
  cases h : findMembership ms gid uid with
  | none => simp [checkGroupPermission, h]
  | some m =>
    refine ⟨?_, ?_, ?_⟩
    · simp [checkGroupPermission, h]
    · simp only [checkGroupPermission, h, decide_eq_true_eq]
      cases m.role <;> simp [roleHierarchy]
    · simp only [checkGroupPermission, h, decide_eq_true_eq]
      intro hr
      refine ⟨m, rfl, ?_⟩
      cases hm : m.role <;> rw [hm] at hr <;> simp [roleHierarchy] at hr ⊢

/-- C5: a magic-link token verifies successfully exactly once.
`verifyMagicLinkToken` succeeds iff the record exists, is not already
used, and is not expired; on success it returns the record's email,
marks the record used, and any repeated verification of the same token
(at any later clock value) fails with `InvalidMagicLink` (`none`). -/
theorem magic_link_single_use (now : Nat) (db : List MagicLinkRecord)
    (tok : String) :
    ((∃ p, verifyMagicLinkToken now db tok = some p) ↔
       ∃ r, findMagicLink db tok = some r ∧ r.used = false ∧
         now ≤ r.expiresAt)
    ∧ ∀ email db2, verifyMagicLinkToken now db tok = some (email, db2) →
        (∃ r, findMagicLink db tok = some r ∧ email = r.email) ∧
          (∀ r2, findMagicLink db2 tok = some r2 → r2.used = true) ∧
          ∀ now2, verifyMagicLinkToken now2 db2 tok = none := by
  cases h : findMagicLink db tok with
  | none =>
    have hv : verifyMagicLinkToken now db tok = none := by
      unfold verifyMagicLinkToken
      rw [h]
    constructor
    · constructor
      · rintro ⟨p, hp⟩
        rw [hv] at hp
        cases hp
      · rintro ⟨r, hr, _⟩
        cases hr
    · intro email db2 heq
      rw [hv] at heq
      cases heq
  | some m =>
    have htok : m.token = tok := by
      have := List.find?_some h
      simpa using this
    by_cases hc : m.used = true ∨ m.expiresAt < now
    · have hv : verifyMagicLinkToken now db tok = none := by
        unfold verifyMagicLinkToken
        rw [h]
        exact if_pos hc
      constructor
      · constructor
        · rintro ⟨p, hp⟩
          rw [hv] at hp
          cases hp
        · rintro ⟨r, hr, hused, hexp⟩
          injection hr with hr
          subst hr
          rcases hc with hc | hc
          · rw [hused] at hc
            cases hc
          · exact absurd hexp (Nat.not_le.mpr hc)
      · intro email db2 heq
        rw [hv] at heq
        cases heq
    · have hused : m.used = false := by
        cases hm : m.used
        · rfl
        · exact absurd (Or.inl hm) hc
      have hexp : now ≤ m.expiresAt := by
        rcases le_or_lt now m.expiresAt with h1 | h1
        · exact h1
        · exact absurd (Or.inr h1) hc
      have hv : verifyMagicLinkToken now db tok =
          some (m.email, markMagicLinkUsed db tok) := by
        unfold verifyMagicLinkToken
        rw [h]
        exact if_neg hc
      have hmark : findMagicLink (markMagicLinkUsed db tok) tok =
          some { m with used := true } := by
        rw [findMagicLink_markUsed, h]
        have : (if m.token = tok then { m with used := true } else m) =
            { m with used := true } := if_pos htok
        exact congrArg _ this
      constructor
      · exact ⟨fun _ => ⟨m, rfl, hused, hexp⟩, fun _ => ⟨_, hv⟩⟩
      · intro email db2 heq
        rw [hv] at heq
        injection heq with heq
        injection heq with he hdb
        subst he
        subst hdb
        refine ⟨⟨m, rfl, rfl⟩, ?_, ?_⟩
        · intro r2 hr2
          rw [hmark] at hr2
          injection hr2 with hr2
          subst hr2
          rfl
        · intro now2
          unfold verifyMagicLinkToken
          rw [hmark]
          exact if_pos (Or.inl rfl)

/-- Witness for C5 at a concrete table: first verification of `tk` at
time 10 succeeds with the record's email; the immediate second
verification fails. -/
theorem magic_link_single_use_witness :
    verifyMagicLinkToken 10 [⟨"tk", "a@b", 100, false⟩] "tk" =
        some ("a@b", [⟨"tk", "a@b", 100, true⟩]) ∧
      verifyMagicLinkToken 10 [⟨"tk", "a@b", 100, true⟩] "tk" = none := by
  have h := (magic_link_single_use 10 [⟨"tk", "a@b", 100, false⟩] "tk").2
    "a@b" [⟨"tk", "a@b", 100, true⟩] (by decide)
  exact ⟨by decide, by simpa using h.2.2 10⟩

/-- C6 counterexample: the claim requires `expiresAt` strictly greater
than `now` for success, but `verifyRefreshToken` only rejects when
`expiresAt < now`: at `now = 1000` a record with `expiresAt = 1000`
(neither revoked nor with `expiresAt > now`) verifies successfully. -/
theorem verifyRefreshToken_expiry_boundary_counterexample :
    verifyRefreshToken ⟨"s", 900, 604800⟩ 1000
        [⟨"t1", "c1", "u1", 1000, false⟩]
        ⟨.refresh "u1" "t1", "clocked", "clocked-refresh", 2000, "s"⟩ =
      some ("u1", "t1") ∧ ¬ ((1000 : Nat) < 1000) := by
  exact ⟨by decide, by decide⟩

/-- C6 (amended): a refresh-token record is usable iff
`!revoked && expiresAt >= now`: `verifyRefreshToken` succeeds with
`(userId, tokenId)` iff the signature/claims verify to those values and
the record referenced by `tokenId` exists, is not revoked, and has
`expiresAt` greater than *or equal to* `now`; otherwise it fails with
`InvalidRefreshToken` (`none`). -/
theorem verifyRefreshToken_usable_iff (cfg : Config) (now : Nat)
    (db : List RefreshTokenRecord) (t : SignedToken) (uid tid : String) :
    verifyRefreshToken cfg now db t = some (uid, tid) ↔
      jwtVerify cfg.jwtSecret "clocked" "clocked-refresh" now t =
          some (.refresh uid tid) ∧
        ∃ r, findRefreshToken db tid = some r ∧ r.revoked = false ∧
          now ≤ r.expiresAt :=
  verifyRefreshToken_some_iff cfg now db t uid tid

/-- Witness for C6's amended theorem: a live record at the expiry
boundary verifies via the right-to-left direction. -/
theorem verifyRefreshToken_usable_iff_witness :
    verifyRefreshToken ⟨"s", 900, 604800⟩ 500
        [⟨"t1", "c1", "u1", 500, false⟩]
        ⟨.refresh "u1" "t1", "clocked", "clocked-refresh", 2000, "s"⟩ =
      some ("u1", "t1") :=
  (verifyRefreshToken_usable_iff ⟨"s", 900, 604800⟩ 500
      [⟨"t1", "c1", "u1", 500, false⟩]
      ⟨.refresh "u1" "t1", "clocked", "clocked-refresh", 2000, "s"⟩
      "u1" "t1").mpr
    ⟨by decide, ⟨"t1", "c1", "u1", 500, false⟩, by decide, rfl, by decide⟩

/-- C3: a refresh token is never usable twice.  If a refresh call
presenting token `t` succeeds (returning a fresh pair and the updated
table), then every subsequent refresh call presenting `t` — at any
later time, against any user table, and after any further sequence of
refresh-token table operations — fails with `InvalidRefreshToken`. -/
theorem refresh_token_single_use (cfg : Config) (now : Nat)
    (users : List User) (db : List RefreshTokenRecord) (t : SignedToken)
    (fid fcol : String) (db2 : List RefreshTokenRecord) (a r2 : SignedToken)
    (hok : refreshHandler cfg now users db t fid fcol = .ok (db2, a, r2)) :
    ∀ db3, Relation.ReflTransGen DbStep db2 db3 →
      ∀ now2 users2 fid2 fcol2,
        refreshHandler cfg now2 users2 db3 t fid2 fcol2 =
          .error .invalidRefreshToken := by
  intro db3 hsteps now2 users2 fid2 fcol2
  unfold refreshHandler at hok
  split at hok
  next => cases hok
  next userId tokenId hverify =>
    split at hok
    next => cases hok
    next u hfindu =>
      injection hok with hok
      injection hok with hdb hok
      rcases (verifyRefreshToken_some_iff cfg now db t userId tokenId).mp
        hverify with ⟨hjv, r, hfind, _, _⟩
      have hbody : t.body = .refresh userId tokenId := by
        unfold jwtVerify at hjv
        by_cases hcnd : t.secret = cfg.jwtSecret ∧ t.iss = "clocked" ∧
            t.aud = "clocked-refresh" ∧ now < t.exp
        · rw [if_pos hcnd] at hjv
          injection hjv
        · rw [if_neg hcnd] at hjv
          cases hjv
      have hrev2 : ∃ r0, findRefreshToken db2 tokenId = some r0 ∧
          r0.revoked = true := by
        rcases revoke_marks_revoked hfind with ⟨r0, hf0, hr0⟩
        refine ⟨r0, ?_, hr0⟩
        rw [← hdb]
        exact find?_append_of_some _ hf0
      have hrev3 := dbSteps_preserve_revoked hsteps hrev2
      have hvnone := verifyRefreshToken_none_of_revoked cfg now2 db3 t
        userId tokenId hbody hrev3
      unfold refreshHandler
      rw [hvnone]

/-- Witness for C3: a concrete successful rotation followed by an
immediate replay of the same token, which is rejected. -/
theorem refresh_token_single_use_witness :
    refreshHandler ⟨"s", 900, 1000⟩ 100 [⟨"u1", "a@b", "h1"⟩]
        [⟨"t1", "c1", "u1", 1000, true⟩, ⟨"t2", "c2", "u1", 1100, false⟩]
        ⟨.refresh "u1" "t1", "clocked", "clocked-refresh", 500, "s"⟩
        "t3" "c3" =
      .error .invalidRefreshToken :=
  refresh_token_single_use ⟨"s", 900, 1000⟩ 100 [⟨"u1", "a@b", "h1"⟩]
    [⟨"t1", "c1", "u1", 1000, false⟩]
    ⟨.refresh "u1" "t1", "clocked", "clocked-refresh", 500, "s"⟩ "t2" "c2"
    [⟨"t1", "c1", "u1", 1000, true⟩, ⟨"t2", "c2", "u1", 1100, false⟩]
    ⟨.access "u1" "a@b" "h1", "clocked", "clocked-users", 1000, "s"⟩
    ⟨.refresh "u1" "t2", "clocked", "clocked-refresh", 1100, "s"⟩
    rfl
    [⟨"t1", "c1", "u1", 1000, true⟩, ⟨"t2", "c2", "u1", 1100, false⟩]
    Relation.ReflTransGen.refl 100 [⟨"u1", "a@b", "h1"⟩] "t3" "c3"

/-- C7: `revokeRefreshToken` is idempotent, and once it has revoked an
existing record, `verifyRefreshToken` never again accepts any token
referencing that record's id, whatever further table operations occur. -/
theorem revoke_idempotent_irreversible (db : List RefreshTokenRecord)
    (tid : String) :
    revokeRefreshToken (revokeRefreshToken db tid) tid =
        revokeRefreshToken db tid
    ∧ ∀ r, findRefreshToken db tid = some r →
        ∀ db3, Relation.ReflTransGen DbStep (revokeRefreshToken db tid) db3 →
          ∀ cfg now t uid,
            verifyRefreshToken cfg now db3 t ≠ some (uid, tid) := by
  constructor
  · unfold revokeRefreshToken
    rw [List.map_map]
    congr 1
    funext r
    by_cases hx : r.id = tid <;> simp [hx]
  · intro r hfind db3 hsteps cfg now t uid
    have hrev2 := revoke_marks_revoked hfind
    have hrev3 := dbSteps_preserve_revoked hsteps hrev2
    exact verifyRefreshToken_ne_some_of_revoked cfg now db3 t uid tid hrev3

/-- Witness for C7: revoking a concrete record twice equals revoking it
once, and after the revocation the original token no longer verifies. -/
theorem revoke_idempotent_irreversible_witness :
    revokeRefreshToken
        (revokeRefreshToken [⟨"t1", "c1", "u1", 1000, false⟩] "t1") "t1" =
      revokeRefreshToken [⟨"t1", "c1", "u1", 1000, false⟩] "t1"
    ∧ verifyRefreshToken ⟨"s", 900, 1000⟩ 100
          (revokeRefreshToken [⟨"t1", "c1", "u1", 1000, false⟩] "t1")
          ⟨.refresh "u1" "t1", "clocked", "clocked-refresh", 500, "s"⟩ ≠
        some ("u1", "t1") := by
  have h := revoke_idempotent_irreversible
    [⟨"t1", "c1", "u1", 1000, false⟩] "t1"
  exact ⟨h.1, h.2 ⟨"t1", "c1", "u1", 1000, false⟩ rfl _
    Relation.ReflTransGen.refl ⟨"s", 900, 1000⟩ 100
    ⟨.refresh "u1" "t1", "clocked", "clocked-refresh", 500, "s"⟩ "u1"⟩

/-- Deleting a user's entry leaves no registry entry for that user. -/
theorem registryGet_delete (st : Registry) (uid : String) :
    registryGet (registryDelete st uid) uid = none := by
  unfold registryGet registryDelete
  have hfind : (st.filter (fun p => p.1 != uid)).find?
      (fun p => p.1 == uid) = none := by
    rw [List.find?_eq_none]
    intro x hx
    have hx2 := (List.mem_filter.mp hx).2
    simp only [bne_iff_ne, ne_eq] at hx2
    simp [hx2]
  rw [hfind]
  rfl

/-- C10 counterexample: user `u` connects on socket 0, then connects on
socket 1 (which fully replaces the registry entry); before socket 0
closes, `sendToUser` attempts delivery (`true`), but when the replaced
socket 0 closes, the close handler deletes the entry keyed by `u` —
which now holds socket 1 — so `sendToUser` returns `false`, refuting
the claim that the replacing connection remains registered. -/
theorem sendToUser_after_replaced_close_counterexample :
    sendToUser
        ((registerConnection
          ((registerConnection [] "u" ["g1"] ⟨0, none, none, true⟩).2)
          "u" ["g1"] ⟨1, none, none, true⟩).2) "u" = true
    ∧ onCloseHandler
        ((registerConnection
          ((registerConnection [] "u" ["g1"] ⟨0, none, none, true⟩).2)
          "u" ["g1"] ⟨1, none, none, true⟩).2)
        ((registerConnection [] "u" ["g1"] ⟨0, none, none, true⟩).1) = []
    ∧ sendToUser
        (onCloseHandler
          ((registerConnection
            ((registerConnection [] "u" ["g1"] ⟨0, none, none, true⟩).2)
            "u" ["g1"] ⟨1, none, none, true⟩).2)
          ((registerConnection [] "u" ["g1"] ⟨0, none, none, true⟩).1))
        "u" = false := by
  refine ⟨rfl, ?_, rfl⟩
  decide

/-- C10 (amended): the close handler deletes the registry entry keyed
by the closing socket's `userId`, whatever socket currently occupies
it; after any socket carrying `userId = uid` closes, no connection is
registered under `uid` and `sendToUser(uid, m)` returns `false`. -/
theorem close_deletes_userId_entry (st : Registry) (c : WsClient)
    (uid : String) (h : c.userId = some uid) :
    registryGet (onCloseHandler st c) uid = none ∧
      sendToUser (onCloseHandler st c) uid = false := by
  have h1 : onCloseHandler st c = registryDelete st uid := by
    unfold onCloseHandler
    rw [h]
  rw [h1]
  refine ⟨registryGet_delete st uid, ?_⟩
  unfold sendToUser
  rw [registryGet_delete]

/-- Witness for C10's amended theorem: the replaced socket's close
deregisters the replacing socket. -/
theorem close_deletes_userId_entry_witness :
    sendToUser
        (onCloseHandler [("u", ⟨1, some "u", some ["g1"], true⟩)]
          ⟨0, some "u", some ["g1"], true⟩) "u" = false :=
  (close_deletes_userId_entry [("u", ⟨1, some "u", some ["g1"], true⟩)]
    ⟨0, some "u", some ["g1"], true⟩ "u" rfl).2

/-- Witness for C9: an `ADMIN` membership grants `MEMBER` permission
but not `OWNER` permission. -/
theorem checkGroupPermission_rank_spec_witness :
    checkGroupPermission [⟨"g1", "u1", .ADMIN⟩] "u1" "g1" .MEMBER = true ∧
      checkGroupPermission [⟨"g1", "u1", .ADMIN⟩] "u1" "g1" .OWNER = false := by
  constructor
  · exact (checkGroupPermission_rank_spec [⟨"g1", "u1", .ADMIN⟩] "u1" "g1"
      .MEMBER).2.1.mpr ⟨⟨"g1", "u1", .ADMIN⟩, rfl⟩
  · decide

end Clocked
